import Mathlib

/-!
Shallow embedding of `launch_aws.py` (repository jmettes/aws-openquake).

The script is a linear orchestration tool: `Launcher.setup` provisions AWS
resources (key pair, security group, one EC2 instance), `Launcher.deploy`
uploads a workload over SSH and polls an HTTP status endpoint on the
instance until a completion flag is observed, and `Launcher.teardown`
releases the resources.  The `__main__` block wraps setup and deploy in a
try/except/finally and installs a SIGTERM/SIGINT handler.

External effects (AWS API calls, SSH, SCP, HTTP, the filesystem) are
modelled by explicit outcome parameters: an environment function says, for
each externally effectful step, whether that step raises.  JSON values
returned by the status endpoint are modelled by an inductive type, and the
Python subscript / `len` / truthiness operations on them return `Option`
(where `none` marks the operations that raise in Python).
-/

namespace LaunchAws

/-! ## JSON values and the Python operations the polling loop applies to them -/

/-- JSON values as produced by `r.json()` in `Launcher.deploy`
(`launch_aws.py` line 119). -/
inductive JVal where
  | jstr (s : String)
  | jbool (b : Bool)
  | jnum (n : Int)
  | jarr (elems : List JVal)
  | jobj (fields : List (String × JVal))

/-- First value bound to a key in a JSON object, as Python dict lookup
(keys in a parsed JSON object are unique). -/
def lookupField : List (String × JVal) → String → Option JVal
  | [], _ => none
  | (k, v) :: rest, key => if k = key then some v else lookupField rest key

/-- Python subscript `j[key]` with a string key: succeeds only on an object
that has the key; on anything else (or a missing key) Python raises, which
is modelled by `none`. -/
def JVal.index : JVal → String → Option JVal
  | .jobj fields, key => lookupField fields key
  | _, _ => none

/-- Python `len(j)`: defined for strings, lists and objects; raises
(`none`) on booleans and numbers. -/
def JVal.pyLen : JVal → Option Nat
  | .jstr s => some s.length
  | .jarr l => some l.length
  | .jobj fields => some fields.length
  | _ => none

/-- Python string coercion used when a JSON value is concatenated into the
printed log line: only an actual string works, anything else raises. -/
def JVal.asStr : JVal → Option String
  | .jstr s => some s
  | _ => none

/-- Python truthiness of a JSON value, used by `if json['done']:`
(`launch_aws.py` line 125). -/
def JVal.truthy : JVal → Bool
  | .jstr s => !s.isEmpty
  | .jbool b => b
  | .jnum n => decide (n ≠ 0)
  | .jarr l => !l.isEmpty
  | .jobj fields => !fields.isEmpty

/-! ## The status-polling loop of `Launcher.deploy` (lines 114-135)

One iteration of `while True:` sleeps one second and then runs

```
try:
    r = requests.get(...); json = r.json()
    new_log_count = len(json['logs'])
    if new_log_count > log_count:
        for log in json['logs'][log_count:]:
            print(log['time'] + ': ' + log['msg'])
        log_count += new_log_count - log_count
    if json['done']:
        break
except:
    pass
try:
    scp.get(remote_path='/tmp/aws_log.log', local_path='.')
except:
    pass
```

A poll response is `Option JVal`: `none` when `requests.get` or `r.json()`
raises (connection refused, malformed body), `some j` when a JSON value was
parsed.  A printed line is recorded together with the list position it was
printed from (`log_count` when the print happened), so duplicate printing
of a position is expressible. -/

/-- Result of one loop iteration: the lines printed (each tagged with its
position in the `logs` list), the value of `log_count` after the iteration,
whether `break` ran, and whether an exception was raised and swallowed by
the `except: pass`. -/
structure IterResult where
  printed : List (Nat × String)
  count : Nat
  brk : Bool
  raised : Bool
deriving DecidableEq

/-- The `for log in ...: print(log['time'] + ': ' + log['msg'])` loop over
the new entries, starting at position `i`.  Returns the lines printed and
whether the whole loop finished without raising; when an entry lacks a
string `time` or `msg` field Python raises before printing that entry, so
the lines printed so far are kept and the flag is `false`. -/
def printLogs (i : Nat) : List JVal → List (Nat × String) × Bool
  | [] => ([], true)
  | log :: rest =>
    match (log.index "time").bind JVal.asStr, (log.index "msg").bind JVal.asStr with
    | some t, some m =>
      ((i, t ++ ": " ++ m) :: (printLogs (i + 1) rest).1, (printLogs (i + 1) rest).2)
    | _, _ => ([], false)

/-- The `if json['done']: break` line: a missing `done` key raises
(swallowed, loop continues); otherwise the loop breaks iff the value is
truthy. -/
def doneCheck (json : JVal) (printed : List (Nat × String)) (count : Nat) : IterResult :=
  match json.index "done" with
  | none => ⟨printed, count, false, true⟩
  | some d => ⟨printed, count, d.truthy, false⟩

/-- One iteration of the polling loop body (the first try/except block).
When `json['logs']` is not a JSON array but is long enough to enter the
printing branch, Python raises either at the slice or at the first entry's
field access with nothing printed; both are modelled by the raised result
with no printed lines and `log_count` unchanged. -/
def pollIter (resp : Option JVal) (log_count : Nat) : IterResult :=
  match resp with
  | none => ⟨[], log_count, false, true⟩
  | some json =>
    match json.index "logs" with
    | none => ⟨[], log_count, false, true⟩
    | some logs =>
      match logs.pyLen with
      | none => ⟨[], log_count, false, true⟩
      | some new_log_count =>
        if new_log_count > log_count then
          match logs with
          | .jarr l =>
            match printLogs log_count (l.drop log_count) with
            | (lines, true) => doneCheck json lines (log_count + (new_log_count - log_count))
            | (lines, false) => ⟨lines, log_count, false, true⟩
          | _ => ⟨[], log_count, false, true⟩
        else
          doneCheck json [] log_count

/-- Observable outcome of running the polling loop against a finite trace
of poll responses: all printed lines (with positions), the final
`log_count`, whether the loop exited via `break` (`finished`), how many
iterations ran, and how many times the per-iteration `scp.get` of
`/tmp/aws_log.log` was attempted. -/
structure LoopResult where
  printed : List (Nat × String)
  count : Nat
  finished : Bool
  iterations : Nat
  downloads : Nat
deriving DecidableEq

/-- The polling loop over a finite trace of responses.  `break` exits the
`while` immediately, skipping the `scp.get` block of that iteration; every
other iteration reaches the `scp.get` attempt (whose own failure is
swallowed and does not affect control flow).  If the trace is exhausted
without `done`, the real loop would keep polling: `finished` is `false`. -/
def pollLoop : List (Option JVal) → Nat → LoopResult
  | [], c => ⟨[], c, false, 0, 0⟩
  | r :: rs, c =>
    if (pollIter r c).brk then
      ⟨(pollIter r c).printed, (pollIter r c).count, true, 1, 0⟩
    else
      ⟨(pollIter r c).printed ++ (pollLoop rs (pollIter r c).count).printed,
       (pollLoop rs (pollIter r c).count).count,
       (pollLoop rs (pollIter r c).count).finished,
       (pollLoop rs (pollIter r c).count).iterations + 1,
       (pollLoop rs (pollIter r c).count).downloads + 1⟩

/-- A log entry is well formed when it has string `time` and `msg` fields,
so printing it cannot raise. -/
def entryWF (log : JVal) : Bool :=
  ((log.index "time").bind JVal.asStr).isSome && ((log.index "msg").bind JVal.asStr).isSome

/-- A poll response is well formed when, if it parses and carries a `logs`
field, that field is a JSON array of well-formed entries. -/
def respWF : Option JVal → Bool
  | none => true
  | some j =>
    match j.index "logs" with
    | none => true
    | some (.jarr l) => l.all entryWF
    | some _ => false

/-! ## Launcher state, `setup` and `teardown` (lines 22-70 and 149-159)

`Launcher.__init__` sets `self.key`, `self.security_group`, `self.instance`
and `self.ip_address` to `None`; `setup` fills them in order.  The boolean
fields below record whether the corresponding resource was created (the
field is no longer `None`); `keyFileWritten` records whether the local
`<session>.pem` file exists.  An ingress rule carries the fields passed to
`authorize_ingress`. -/

/-- One ingress rule of the security group, with the fields of the
`IpPermissions` entry passed to `authorize_ingress` (lines 45-54). -/
structure IngressRule where
  ipProtocol : String
  fromPort : Nat
  toPort : Nat
  cidrIp : String
deriving DecidableEq

/-- The mutable state of the `Launcher` object. -/
structure Launcher where
  key : Bool
  keyFileWritten : Bool
  security_group : Bool
  ingress : List IngressRule
  inst : Bool
  ip_known : Bool
deriving DecidableEq

/-- State after `Launcher.__init__` (lines 23-29): every resource absent. -/
def initLauncher : Launcher :=
  { key := false, keyFileWritten := false, security_group := false,
    ingress := [], inst := false, ip_known := false }

/-- The externally effectful steps of `setup`, in source order
(lines 31-71). -/
inductive SStep where
  | createKey       -- line 34: `self.ec2.create_key_pair(...)`
  | writeKeyFile    -- lines 35-36: write `<session>.pem`
  | chmodFile       -- line 37: `os.chmod(..., 0o600)`
  | createSG        -- line 41: `self.ec2.create_security_group(...)`
  | authorize22     -- lines 45-49: `authorize_ingress` for TCP 22
  | authorize8080   -- lines 50-54: `authorize_ingress` for TCP 8080
  | createInstances -- lines 58-64: `self.ec2.create_instances(...)`
  | waitRunning     -- line 69: `self.instance.wait_until_running()`
  | readIp          -- line 70: read `public_ip_address`
deriving DecidableEq

/-- The ingress rule for TCP port 22 open to all sources (lines 45-49). -/
def rule22 : IngressRule := ⟨"tcp", 22, 22, "0.0.0.0/0"⟩

/-- The ingress rule for TCP port 8080 open to all sources (lines 50-54). -/
def rule8080 : IngressRule := ⟨"tcp", 8080, 8080, "0.0.0.0/0"⟩

/-- Launcher state after `create_key_pair` succeeded (line 34). -/
def stKey : Launcher := { initLauncher with key := true }

/-- State after the `.pem` file was written (lines 35-36). -/
def stKeyFile : Launcher := { stKey with keyFileWritten := true }

/-- State after `create_security_group` succeeded (line 41). -/
def stSG : Launcher := { stKeyFile with security_group := true }

/-- State after the first `authorize_ingress` call (lines 45-49). -/
def stAuth22 : Launcher := { stSG with ingress := stSG.ingress ++ [rule22] }

/-- State after the second `authorize_ingress` call (lines 50-54). -/
def stAuth8080 : Launcher := { stAuth22 with ingress := stAuth22.ingress ++ [rule8080] }

/-- State after `create_instances` returned and `self.instance` was set
(lines 58-68). -/
def stInst : Launcher := { stAuth8080 with inst := true }

/-- State after `wait_until_running` and the public-address read
(lines 69-70): every resource of a completed `setup`. -/
def stIp : Launcher := { stInst with ip_known := true }

/-- `Launcher.setup` (lines 31-71) under an environment telling which
external step raises first: the method runs the steps in source order and
an uncaught provider error leaves the fields assigned so far.  Returns the
resulting object state and whether `setup` returned normally. -/
def setup (env : SStep → Bool) : Launcher × Bool :=
  if env .createKey then (initLauncher, false)
  else if env .writeKeyFile then (stKey, false)
  else if env .chmodFile then (stKeyFile, false)
  else if env .createSG then (stKeyFile, false)
  else if env .authorize22 then (stSG, false)
  else if env .authorize8080 then (stAuth22, false)
  else if env .createInstances then (stAuth8080, false)
  else if env .waitRunning then (stInst, false)
  else if env .readIp then (stInst, false)
  else (stIp, true)

/-- The externally effectful steps of `teardown`, in source order
(lines 149-159). -/
inductive TStep where
  | terminate   -- line 151: `self.instance.terminate()`
  | waitTerm    -- line 152: `self.instance.wait_until_terminated()`
  | deleteSG    -- line 155: `self.security_group.delete()`
  | deleteKey   -- line 158: `self.key.delete()`
  | removeFile  -- line 159: `os.remove(self.timestamp + '.pem')`
deriving DecidableEq

/-- The five teardown steps in the order `teardown` performs them. -/
def teardownSteps : List TStep :=
  [.terminate, .waitTerm, .deleteSG, .deleteKey, .removeFile]

/-- `Launcher.teardown` (lines 149-159): the steps run in source order with
no guards and no exception handling.  A step raises when its resource was
never created (`self.instance.terminate()` on `None` is an AttributeError,
`os.remove` on a missing file is an OSError) or when the environment says
the external call fails; the first raising step aborts the method.  Returns
the list of steps that completed and whether `teardown` returned
normally. -/
def teardown (env : TStep → Bool) (st : Launcher) : List TStep × Bool :=
  if !st.inst || env .terminate then ([], false)
  else if env .waitTerm then ([.terminate], false)
  else if !st.security_group || env .deleteSG then ([.terminate, .waitTerm], false)
  else if !st.key || env .deleteKey then ([.terminate, .waitTerm, .deleteSG], false)
  else if !st.keyFileWritten || env .removeFile then
    ([.terminate, .waitTerm, .deleteSG, .deleteKey], false)
  else (teardownSteps, true)

/-! ## The `__main__` driver and the signal handler (lines 12-19, 162-180)

```
try:
    launcher.setup(); launcher.deploy()
except Exception as e:
    print("Error - could not run: " + str(e))
finally:
    launcher.teardown()
```

`signal_term_handler` prompts for confirmation; on `y` it calls the bound
`launcher.teardown` and then `sys.exit(0)`.  `sys.exit` raises
`SystemExit`, which propagates from the point in the main flow where the
signal was delivered; `except Exception` does not catch `SystemExit`
(it derives from `BaseException` only), but the `finally` clause still
runs. -/

/-- Abstract observable events of one program run. -/
inductive MEvent where
  | printSettingUp          -- line 171
  | printDeploying          -- line 173
  | printDownloadingResults -- line 137
  | printDownloadError      -- lines 143-144
  | printHandlerTearingDown -- line 15
  | printErrorCouldNotRun   -- line 177
  | printTearingDownFinally -- line 179
  | teardownCall            -- an invocation of `launcher.teardown`
deriving DecidableEq

/-- The three exit paths named by the spec: normal completion (with the
results download succeeding or failing), an unhandled `Exception` raised
inside setup or deploy, and a SIGTERM/SIGINT delivered during setup or
deploy whose confirmation prompt is answered yes. -/
inductive ExitPath where
  | normal (downloadOk : Bool)
  | exnDuringTry
  | signalConfirmed
deriving DecidableEq

/-- How the try block terminates: a normal return, an `Exception`
(caught by `except Exception`), or a `SystemExit` raised by the signal
handler's `sys.exit(0)` (not caught by `except Exception`). -/
inductive TryOutcome where
  | ok
  | exn
  | sysExit
deriving DecidableEq

/-- End of `deploy` (lines 137-144): prints `downloading results`, attempts
the results download, and on failure catches the exception and reports it;
either way `deploy` returns normally. -/
def deployResultsEvents (downloadOk : Bool) : List MEvent :=
  if downloadOk then [.printDownloadingResults]
  else [.printDownloadingResults, .printDownloadError]

/-- `signal_term_handler` (lines 12-19): on a confirmed prompt it prints,
invokes the bound `launcher.teardown`, and calls `sys.exit(0)` (the `Bool`
says whether `SystemExit` is raised); on `n` it returns and the interrupted
flow resumes. -/
def signalHandlerRun (confirmYes : Bool) : List MEvent × Bool :=
  if confirmYes then ([.printHandlerTearingDown, .teardownCall], true) else ([], false)

/-- The try block of `__main__` (lines 170-174) on each exit path: the
events it emits and how it terminates.  On the confirmed-signal path the
handler runs while setup/deploy is in progress and its `SystemExit`
propagates out of the try block. -/
def tryBody : ExitPath → List MEvent × TryOutcome
  | .normal downloadOk =>
    ([.printSettingUp, .printDeploying] ++ deployResultsEvents downloadOk, .ok)
  | .exnDuringTry => ([.printSettingUp], .exn)
  | .signalConfirmed => ([.printSettingUp] ++ (signalHandlerRun true).1, .sysExit)

/-- `except Exception` (line 176) catches `Exception` but not
`SystemExit`. -/
def exceptCatches : TryOutcome → Bool
  | .exn => true
  | _ => false

/-- One whole run of `__main__` (lines 162-180): the try block, then the
`except Exception` clause when it applies, then the `finally` clause, which
always prints and invokes `launcher.teardown`. -/
def mainRun (p : ExitPath) : List MEvent :=
  ((tryBody p).1 ++ (if exceptCatches (tryBody p).2 then [.printErrorCouldNotRun] else []))
    ++ [.printTearingDownFinally, .teardownCall]

/-- Number of `launcher.teardown` invocations in a run's event list. -/
def teardownCount : List MEvent → Nat
  | [] => 0
  | e :: rest => (if e = MEvent.teardownCall then 1 else 0) + teardownCount rest

/-! ## Concrete inputs used by the claims -/

/-- The log entry with time `t1` and message `a`. -/
def entryT1A : JVal := .jobj [("time", .jstr "t1"), ("msg", .jstr "a")]

/-- The log entry with time `t2` and message `b`. -/
def entryT2B : JVal := .jobj [("time", .jstr "t2"), ("msg", .jstr "b")]

/-- A parsed response with one entry and `done` false. -/
def jShrunk : JVal := .jobj [("logs", .jarr [entryT1A]), ("done", .jbool false)]

/-- First response of the two-response trace. -/
def respOne : Option JVal := some jShrunk

/-- Second response of the two-response trace: both entries, `done` true. -/
def respTwo : Option JVal :=
  some (.jobj [("logs", .jarr [entryT1A, entryT2B]), ("done", .jbool true)])

/-- A response whose body has a `logs` list but no `done` key, so the
`json['done']` access raises after the new entries were printed. -/
def respNoDone : Option JVal := some (.jobj [("logs", .jarr [entryT1A])])

/-- A response with an empty `logs` list and `done` true: the loop breaks
on its first iteration. -/
def respDoneEmpty : Option JVal := some (.jobj [("logs", .jarr []), ("done", .jbool true)])

/-- A log entry with no `msg` field: printing it raises. -/
def entryNoMsg : JVal := .jobj [("time", .jstr "t2")]

/-- A response whose second entry is malformed: the first entry is printed,
then the print of the second raises, so `log_count` is never advanced. -/
def respBadEntry : Option JVal :=
  some (.jobj [("logs", .jarr [entryT1A, entryNoMsg]), ("done", .jbool false)])

/-- Environment making `create_security_group` (line 41) raise: `setup`
stops after the key pair was created and its file written. -/
def setupFailSG : SStep → Bool
  | .createSG => true
  | _ => false

/-- Environment making `self.security_group.delete()` (line 155) raise. -/
def tdFailSG : TStep → Bool
  | .deleteSG => true
  | _ => false

/-- Environment in which every setup step succeeds. -/
def envOkS : SStep → Bool := fun _ => false

/-- Environment in which every teardown step's external call succeeds. -/
def envOkT : TStep → Bool := fun _ => false

/-! ## Helper lemmas -/

theorem doneCheck_printed (j : JVal) (p : List (Nat × String)) (c : Nat) :
    (doneCheck j p c).printed = p := by
  unfold doneCheck; cases JVal.index j "done" <;> rfl

theorem doneCheck_count (j : JVal) (p : List (Nat × String)) (c : Nat) :
    (doneCheck j p c).count = c := by
  unfold doneCheck; cases JVal.index j "done" <;> rfl

theorem doneCheck_raised_brk (j : JVal) (p : List (Nat × String)) (c : Nat)
    (h : (doneCheck j p c).raised = true) : (doneCheck j p c).brk = false := by
  unfold doneCheck at h ⊢
  cases hd : JVal.index j "done" with
  | none => simp only [hd]
  | some d => rw [hd] at h; exact Bool.noConfusion h

theorem printLogs_ok_length : ∀ (es : List JVal) (i : Nat),
    (printLogs i es).2 = true → (printLogs i es).1.length = es.length
  | [], _, _ => rfl
  | log :: rest, i, h => by
    cases ht : (log.index "time").bind JVal.asStr with
    | none =>
      simp only [printLogs, ht] at h
      exact Bool.noConfusion h
    | some t =>
      cases hm : (log.index "msg").bind JVal.asStr with
      | none =>
        simp only [printLogs, ht, hm] at h
        exact Bool.noConfusion h
      | some m =>
        simp only [printLogs, ht, hm] at h ⊢
        simp only [List.length_cons, printLogs_ok_length rest (i + 1) h]

theorem printLogs_ok_map : ∀ (es : List JVal) (i : Nat),
    (∀ e ∈ es, entryWF e = true) →
    (printLogs i es).2 = true ∧
      (printLogs i es).1.map Prod.fst = List.range' i es.length
  | [], _, _ => ⟨rfl, rfl⟩
  | log :: rest, i, h => by
    have hl : entryWF log = true := h log (List.mem_cons_self log rest)
    have hrest := printLogs_ok_map rest (i + 1) (fun e he => h e (List.mem_cons_of_mem _ he))
    unfold entryWF at hl
    cases ht : (log.index "time").bind JVal.asStr with
    | none => rw [ht] at hl; simp at hl
    | some t =>
      cases hm : (log.index "msg").bind JVal.asStr with
      | none => rw [ht, hm] at hl; simp at hl
      | some m =>
        simp only [printLogs, ht, hm]
        refine ⟨hrest.1, ?_⟩
        simp only [List.map_cons, hrest.2, List.length_cons, List.range'_succ]

theorem range'_pairwise_lt : ∀ (n s : Nat), List.Pairwise (· < ·) (List.range' s n)
  | 0, _ => List.Pairwise.nil
  | n + 1, s => by
    rw [List.range'_succ]
    refine List.Pairwise.cons ?_ (range'_pairwise_lt n (s + 1))
    intro m hm
    have := List.mem_range'_1.1 hm
    omega

theorem pollIter_count_ge (r : Option JVal) (c : Nat) : c ≤ (pollIter r c).count := by
  unfold pollIter
  repeat' split
  all_goals first
    | exact Nat.le_refl c
    | (rw [doneCheck_count]; (try omega))

theorem pollIter_shrink (j : JVal) (l : List JVal) (c : Nat)
    (hj : JVal.index j "logs" = some (.jarr l)) (hlen : l.length ≤ c) :
    (pollIter (some j) c).printed = [] ∧ (pollIter (some j) c).count = c := by
  have e : pollIter (some j) c = doneCheck j [] c := by
    simp only [pollIter, hj, JVal.pyLen]
    rw [if_neg (by omega : ¬ l.length > c)]
  rw [e]
  exact ⟨doneCheck_printed j [] c, doneCheck_count j [] c⟩

theorem pollIter_wf (r : Option JVal) (c : Nat) (h : respWF r = true) :
    c ≤ (pollIter r c).count ∧
    (∀ p ∈ (pollIter r c).printed, c ≤ p.1 ∧ p.1 < (pollIter r c).count) ∧
    List.Pairwise (fun a b : Nat × String => a.1 < b.1) (pollIter r c).printed := by
  cases r with
  | none =>
    exact ⟨Nat.le_refl c, (fun p hp => absurd hp (List.not_mem_nil p)), List.Pairwise.nil⟩
  | some j =>
    simp only [respWF] at h
    cases hj : JVal.index j "logs" with
    | none =>
      have e : pollIter (some j) c = ⟨[], c, false, true⟩ := by
        simp only [pollIter, hj]
      rw [e]
      exact ⟨Nat.le_refl c, (fun p hp => absurd hp (List.not_mem_nil p)), List.Pairwise.nil⟩
    | some logs =>
      rw [hj] at h
      cases logs with
      | jstr s => exact Bool.noConfusion h
      | jbool b => exact Bool.noConfusion h
      | jnum n => exact Bool.noConfusion h
      | jobj fields => exact Bool.noConfusion h
      | jarr l =>
        by_cases hlen : l.length ≤ c
        · have hs := pollIter_shrink j l c hj hlen
          refine ⟨pollIter_count_ge _ c, ?_, ?_⟩
          · rw [hs.1]; exact fun p hp => absurd hp (List.not_mem_nil p)
          · rw [hs.1]; exact List.Pairwise.nil
        · have hgt : l.length > c := by omega
          have hwf : ∀ e ∈ l.drop c, entryWF e = true := by
            intro e he
            exact (List.all_eq_true.1 h) e (List.drop_subset c l he)
          have hpl := printLogs_ok_map (l.drop c) c hwf
          cases hpr : printLogs c (l.drop c) with
          | mk lines ok =>
            rw [hpr] at hpl
            cases ok with
            | false => exact absurd hpl.1 (by simp)
            | true =>
              have e : pollIter (some j) c = doneCheck j lines (c + (l.length - c)) := by
                simp only [pollIter, hj, JVal.pyLen, hpr, if_pos hgt]
              have hmap : lines.map Prod.fst = List.range' c (l.length - c) := by
                have := hpl.2
                rwa [List.length_drop] at this
              rw [e, doneCheck_count, doneCheck_printed]
              refine ⟨(by omega), ?_, ?_⟩
              · intro p hp
                have hmem : p.1 ∈ List.range' c (l.length - c) := by
                  rw [← hmap]
                  exact List.mem_map_of_mem Prod.fst hp
                have := List.mem_range'_1.1 hmem
                omega
              · have hpw : List.Pairwise (· < ·) (lines.map Prod.fst) := by
                  rw [hmap]; exact range'_pairwise_lt _ c
                exact List.pairwise_map.1 hpw

theorem pollLoop_count_ge : ∀ (rs : List (Option JVal)) (c : Nat), c ≤ (pollLoop rs c).count
  | [], c => Nat.le_refl c
  | r :: rs, c => by
    unfold pollLoop
    split
    · exact pollIter_count_ge r c
    · exact Nat.le_trans (pollIter_count_ge r c) (pollLoop_count_ge rs (pollIter r c).count)

theorem pollLoop_wf : ∀ (rs : List (Option JVal)) (c : Nat), rs.all respWF = true →
    (∀ p ∈ (pollLoop rs c).printed, c ≤ p.1) ∧
    List.Pairwise (fun a b : Nat × String => a.1 < b.1) (pollLoop rs c).printed
  | [], c, _ => ⟨fun p hp => absurd hp (List.not_mem_nil p), List.Pairwise.nil⟩
  | r :: rs, c, h => by
    rw [List.all_cons, Bool.and_eq_true] at h
    have hw := pollIter_wf r c h.1
    have ih := pollLoop_wf rs (pollIter r c).count h.2
    unfold pollLoop
    split
    · exact ⟨fun p hp => (hw.2.1 p hp).1, hw.2.2⟩
    · refine ⟨?_, ?_⟩
      · intro p hp
        rcases List.mem_append.1 hp with hp1 | hp2
        · exact (hw.2.1 p hp1).1
        · exact Nat.le_trans (pollIter_count_ge r c) (ih.1 p hp2)
      · exact List.pairwise_append.2
          ⟨hw.2.2, ih.2,
           fun a ha b hb => Nat.lt_of_lt_of_le (hw.2.1 a ha).2 (ih.1 b hb)⟩

theorem setup_success (env : SStep → Bool) (h : (setup env).2 = true) :
    (setup env).1 = stIp := by
  unfold setup at h ⊢
  split_ifs at h ⊢
  all_goals simp_all

/-! ## The claims -/

/-- C1: the spec requires that a `teardown` call made after `setup` was
interrupted partway (here: `create_security_group` raised, so the key pair
exists but the security group and the instance were never created) must not
raise on the steps whose resource was never created.  The code has no such
guards: `teardown` raises immediately at `self.instance.terminate()`
(AttributeError on `None`) and completes zero steps, even though every
external call that is attempted would have succeeded. -/
theorem c1_teardown_raises_after_partial_setup :
    (setup setupFailSG).2 = false ∧
    (setup setupFailSG).1.key = true ∧
    (setup setupFailSG).1.security_group = false ∧
    (setup setupFailSG).1.inst = false ∧
    teardown envOkT (setup setupFailSG).1 = ([], false) := by decide

/-- C2 (counterexample): the claim says `teardown` is invoked exactly once
on every exit path.  On the confirmed-signal path the handler invokes
`teardown` and then `sys.exit(0)`; the resulting `SystemExit` is not caught
by `except Exception`, but the `finally` clause still runs and invokes
`teardown` a second time, so the invocation count is 2, not 1. -/
theorem c2_counterexample :
    teardownCount (mainRun ExitPath.signalConfirmed) = 2 ∧
    teardownCount (mainRun ExitPath.signalConfirmed) ≠ 1 := by decide

/-- C2 (amended): `teardown` is invoked exactly once on the
normal-completion path (whether or not the results download succeeds) and
on the unhandled-exception path; on a confirmed termination/interrupt
signal delivered during setup or deploy it is invoked twice, once by the
signal handler and once by the `finally` clause. -/
theorem c2_teardown_invocations (downloadOk : Bool) :
    teardownCount (mainRun (ExitPath.normal downloadOk)) = 1 ∧
    teardownCount (mainRun ExitPath.exnDuringTry) = 1 ∧
    teardownCount (mainRun ExitPath.signalConfirmed) = 2 := by
  cases downloadOk <;> decide

/-- C3: on the two-response trace (`one entry / done false`, then `both
entries / done true`) the polling loop prints exactly the two lines
`t1: a` and `t2: b`, one per distinct entry, each from its own list
position, in list order; it runs exactly two iterations and exits the loop
via `break` right after processing the second response. -/
theorem c3_two_responses :
    pollLoop [respOne, respTwo] 0 = ⟨[(0, "t1: a"), (1, "t2: b")], 2, true, 2, 1⟩ := by
  decide

/-- C4: on every successful run (a `setup` that returned normally, and a
teardown environment in which no external call fails) `teardown` performs
exactly, and in this order: instance termination, the wait for termination,
security-group deletion, remote key-pair deletion, and removal of the local
private-key file. -/
theorem c4_teardown_order (envS : SStep → Bool) (envT : TStep → Bool)
    (hS : (setup envS).2 = true) (hT : ∀ s, envT s = false) :
    teardown envT (setup envS).1 =
      ([.terminate, .waitTerm, .deleteSG, .deleteKey, .removeFile], true) := by
  rw [setup_success envS hS]
  unfold teardown
  simp [hT, stIp, stInst, stAuth8080, stAuth22, stSG, stKeyFile, stKey, initLauncher,
    teardownSteps]

/-- C4 witness: a concrete successful run. -/
theorem c4_teardown_order_witness :
    teardown envOkT (setup envOkS).1 =
      ([.terminate, .waitTerm, .deleteSG, .deleteKey, .removeFile], true) :=
  c4_teardown_order envOkS envOkT (by decide) (fun _ => rfl)

/-- C5 (counterexample): the claim says that on every poll iteration in
which the HTTP GET, the JSON parse, or a field access raises, the error is
swallowed and the printed-entry count is unchanged.  For a response whose
body has a `logs` list but no `done` key, the `json['done']` access raises
after the new entry was printed and counted: the error is swallowed and the
loop continues, but `log_count` went from 0 to 1. -/
theorem c5_counterexample :
    (pollIter respNoDone 0).raised = true ∧
    (pollIter respNoDone 0).brk = false ∧
    (pollIter respNoDone 0).count ≠ 0 := by decide

/-- C5 (amended): on every poll iteration in which the HTTP GET, the JSON
parse, or a field access raises, the error is swallowed and the loop is not
terminated (the next iteration follows after the sleep at the top of the
loop); the printed-entry count is unchanged, except when the raising access
is the `done` lookup reached after new entries were printed, in which case
the count has advanced by exactly the number of entries printed in that
iteration. -/
theorem c5_swallowed_poll_errors (r : Option JVal) (c : Nat)
    (h : (pollIter r c).raised = true) :
    (pollIter r c).brk = false ∧
    ((pollIter r c).count = c ∨
      (pollIter r c).count = c + (pollIter r c).printed.length) := by
  cases r with
  | none => exact ⟨rfl, Or.inl rfl⟩
  | some j =>
    cases hj : JVal.index j "logs" with
    | none =>
      have e : pollIter (some j) c = ⟨[], c, false, true⟩ := by
        simp only [pollIter, hj]
      rw [e]
      exact ⟨rfl, Or.inl rfl⟩
    | some logs =>
      cases logs with
      | jbool b =>
        have e : pollIter (some j) c = ⟨[], c, false, true⟩ := by
          simp only [pollIter, hj, JVal.pyLen]
        rw [e]
        exact ⟨rfl, Or.inl rfl⟩
      | jnum n =>
        have e : pollIter (some j) c = ⟨[], c, false, true⟩ := by
          simp only [pollIter, hj, JVal.pyLen]
        rw [e]
        exact ⟨rfl, Or.inl rfl⟩
      | jstr s =>
        by_cases hgt : s.length > c
        · have e : pollIter (some j) c = ⟨[], c, false, true⟩ := by
            simp only [pollIter, hj, JVal.pyLen, if_pos hgt]
          rw [e]
          exact ⟨rfl, Or.inl rfl⟩
        · have e : pollIter (some j) c = doneCheck j [] c := by
            simp only [pollIter, hj, JVal.pyLen, if_neg hgt]
          rw [e] at h ⊢
          exact ⟨doneCheck_raised_brk j [] c h, Or.inl (doneCheck_count j [] c)⟩
      | jobj fields =>
        by_cases hgt : fields.length > c
        · have e : pollIter (some j) c = ⟨[], c, false, true⟩ := by
            simp only [pollIter, hj, JVal.pyLen, if_pos hgt]
          rw [e]
          exact ⟨rfl, Or.inl rfl⟩
        · have e : pollIter (some j) c = doneCheck j [] c := by
            simp only [pollIter, hj, JVal.pyLen, if_neg hgt]
          rw [e] at h ⊢
          exact ⟨doneCheck_raised_brk j [] c h, Or.inl (doneCheck_count j [] c)⟩
      | jarr l =>
        by_cases hgt : l.length > c
        · cases hpr : printLogs c (l.drop c) with
          | mk lines ok =>
            cases ok with
            | false =>
              have e : pollIter (some j) c = ⟨lines, c, false, true⟩ := by
                simp only [pollIter, hj, JVal.pyLen, if_pos hgt, hpr]
              rw [e]
              exact ⟨rfl, Or.inl rfl⟩
            | true =>
              have e : pollIter (some j) c = doneCheck j lines (c + (l.length - c)) := by
                simp only [pollIter, hj, JVal.pyLen, if_pos hgt, hpr]
              have hlen : lines.length = l.length - c := by
                have h2 : (printLogs c (l.drop c)).2 = true := by rw [hpr]
                have h3 := printLogs_ok_length (l.drop c) c h2
                rw [hpr] at h3
                rw [h3, List.length_drop]
              rw [e] at h ⊢
              refine ⟨doneCheck_raised_brk j lines _ h, Or.inr ?_⟩
              rw [doneCheck_count, doneCheck_printed, hlen]
        · have e : pollIter (some j) c = doneCheck j [] c := by
            simp only [pollIter, hj, JVal.pyLen, if_neg hgt]
          rw [e] at h ⊢
          exact ⟨doneCheck_raised_brk j [] c h, Or.inl (doneCheck_count j [] c)⟩

/-- C5 witness: the amended theorem applied to the `done`-missing response
at count 0. -/
theorem c5_swallowed_poll_errors_witness :
    (pollIter respNoDone 0).brk = false ∧
    ((pollIter respNoDone 0).count = 0 ∨
      (pollIter respNoDone 0).count = 0 + (pollIter respNoDone 0).printed.length) :=
  c5_swallowed_poll_errors respNoDone 0 (by decide)

/-- C6: when the final results download fails, `deploy` catches the
exception and returns normally (the try block of `__main__` completes with
outcome `ok`), the failure is reported to the user, and the `finally`
clause still invokes `teardown` exactly once. -/
theorem c6_download_failure_still_tears_down :
    (tryBody (ExitPath.normal false)).2 = TryOutcome.ok ∧
    MEvent.printDownloadError ∈ mainRun (ExitPath.normal false) ∧
    teardownCount (mainRun (ExitPath.normal false)) = 1 := by decide

/-- C7: whenever `teardown` does not return normally (some step raised,
whether an external failure or an uncreated resource), the steps that
completed are exactly an initial segment of the five teardown steps, and no
later step was executed. -/
theorem c7_teardown_aborts_on_error (env : TStep → Bool) (st : Launcher)
    (h : (teardown env st).2 = false) :
    ∃ n, n < teardownSteps.length ∧ (teardown env st).1 = teardownSteps.take n ∧
      ∀ s ∈ teardownSteps.drop n, s ∉ (teardown env st).1 := by
  unfold teardown at h ⊢
  split_ifs at h ⊢
  · exact ⟨0, (by decide), rfl, (by decide)⟩
  · exact ⟨1, (by decide), rfl, (by decide)⟩
  · exact ⟨2, (by decide), rfl, (by decide)⟩
  · exact ⟨3, (by decide), rfl, (by decide)⟩
  · exact ⟨4, (by decide), rfl, (by decide)⟩

/-- C7 witness: the claim's own example, a run in which every resource was
created and `self.security_group.delete()` fails: the completed steps are
exactly the first two, so the key pair is not deleted and the local key
file is not removed. -/
theorem c7_teardown_aborts_on_error_witness :
    ∃ n, n < teardownSteps.length ∧
      (teardown tdFailSG stIp).1 = teardownSteps.take n ∧
      ∀ s ∈ teardownSteps.drop n, s ∉ (teardown tdFailSG stIp).1 :=
  c7_teardown_aborts_on_error tdFailSG stIp (by decide)

/-- C8 (counterexample): the claim says the remote log file download is
attempted on every loop iteration, including the one that observes the
completion flag.  On a trace whose single response has `done` true, the
loop runs one iteration and attempts zero downloads: `break` exits the
`while` before the download block of that iteration. -/
theorem c8_counterexample :
    (pollLoop [respDoneEmpty] 0).finished = true ∧
    (pollLoop [respDoneEmpty] 0).iterations = 1 ∧
    (pollLoop [respDoneEmpty] 0).downloads = 0 ∧
    (pollLoop [respDoneEmpty] 0).downloads ≠ (pollLoop [respDoneEmpty] 0).iterations := by
  decide

/-- C8 (amended): the download of `/tmp/aws_log.log` is attempted on every
iteration except the one in which the completion flag is observed true
(`break` skips that iteration's download block): the number of attempts
equals the number of iterations minus one exactly when the loop finished,
and equals the number of iterations otherwise.  Failures of the attempt are
swallowed and never affect the loop. -/
theorem c8_download_per_iteration : ∀ (rs : List (Option JVal)) (c : Nat),
    (pollLoop rs c).downloads + (if (pollLoop rs c).finished then 1 else 0) =
      (pollLoop rs c).iterations
  | [], _ => rfl
  | r :: rs, c => by
    have ih := c8_download_per_iteration rs (pollIter r c).count
    unfold pollLoop
    split
    · rfl
    · show (pollLoop rs (pollIter r c).count).downloads + 1 +
        (if (pollLoop rs (pollIter r c).count).finished then 1 else 0) =
        (pollLoop rs (pollIter r c).count).iterations + 1
      cases hf : (pollLoop rs (pollIter r c).count).finished <;>
        rw [hf] at ih <;> simp at ih ⊢ <;> omega

/-- C9: after any `setup` that returned normally, the security group's
ingress policy holds exactly two rules, TCP 22 and TCP 8080, each with
source range 0.0.0.0/0, and nothing else. -/
theorem c9_ingress_rules (env : SStep → Bool) (h : (setup env).2 = true) :
    (setup env).1.ingress =
      [⟨"tcp", 22, 22, "0.0.0.0/0"⟩, ⟨"tcp", 8080, 8080, "0.0.0.0/0"⟩] := by
  rw [setup_success env h]
  rfl

/-- C9 witness: the failure-free setup run. -/
theorem c9_ingress_rules_witness :
    (setup envOkS).1.ingress =
      [⟨"tcp", 22, 22, "0.0.0.0/0"⟩, ⟨"tcp", 8080, 8080, "0.0.0.0/0"⟩] :=
  c9_ingress_rules envOkS (by decide)

/-- C10 (counterexample): the claim concludes that no list position is ever
printed twice.  With a response whose second entry lacks a `msg` field, the
first entry is printed but the raise during the second print is swallowed
before `log_count` is updated, so the next iteration prints position 0
again. -/
theorem c10_counterexample :
    (pollLoop [respBadEntry, respBadEntry] 0).printed.map Prod.fst = [0, 0] ∧
    ¬ List.Pairwise (fun a b : Nat × String => a.1 ≠ b.1)
        (pollLoop [respBadEntry, respBadEntry] 0).printed := by
  refine ⟨rfl, ?_⟩
  intro hp
  have e : (pollLoop [respBadEntry, respBadEntry] 0).printed =
      [(0, "t1: a"), (0, "t1: a")] := by decide
  rw [e] at hp
  exact (List.pairwise_cons.1 hp).1 (0, "t1: a") (List.mem_cons_self _ _) rfl

/-- C10 (amended): the printed-entry counter is monotone non-decreasing
across the whole run; an iteration whose response carries a `logs` list no
longer than the current counter (including one that shrank) prints nothing
and leaves the counter unchanged; and provided every response's log entries
are well formed (string `time` and `msg` fields, so no print raises
mid-slice), every printed position is strictly larger than all positions
printed before it, so no list position is ever printed twice. -/
theorem c10_count_monotone (rs : List (Option JVal)) (c : Nat)
    (h : rs.all respWF = true) :
    c ≤ (pollLoop rs c).count ∧
    (∀ (j : JVal) (l : List JVal) (c' : Nat),
        JVal.index j "logs" = some (.jarr l) → l.length ≤ c' →
        (pollIter (some j) c').printed = [] ∧ (pollIter (some j) c').count = c') ∧
    List.Pairwise (fun a b : Nat × String => a.1 < b.1) (pollLoop rs c).printed :=
  ⟨pollLoop_count_ge rs c,
   fun j l c' hj hl => pollIter_shrink j l c' hj hl,
   (pollLoop_wf rs c h).2⟩

/-- C10 witness: the well-formed one-response trace, and the shrink case at
a counter already past the single entry. -/
theorem c10_count_monotone_witness :
    0 ≤ (pollLoop [respOne] 0).count ∧
    ((pollIter (some jShrunk) 1).printed = [] ∧ (pollIter (some jShrunk) 1).count = 1) ∧
    List.Pairwise (fun a b : Nat × String => a.1 < b.1) (pollLoop [respOne] 0).printed := by
  have H := c10_count_monotone [respOne] 0 (by decide)
  exact ⟨H.1, H.2.1 jShrunk [entryT1A] 1 rfl (by decide), H.2.2⟩

end LaunchAws
